import Mathlib

/-! Shallow embedding of the SkillStream application (`core/models.py`,
`core/views.py`): the database tables, the view handlers, and the
algorithms they use, together with proofs of the behavioural properties
the specification states about them. -/

/-- Lowercase a string, modelling Python's `str.lower` / the
case-insensitivity of the `icontains` lookup (ASCII case folding). -/
def lowerStr (s : String) : String := ⟨s.data.map Char.toLower⟩

/-- Decides whether the first list occurs at the start of the second. -/
def charsPrefixOf : List Char → List Char → Bool
  | [], _ => true
  | _ :: _, [] => false
  | a :: as, b :: bs => a = b && charsPrefixOf as bs

/-- Decides whether `needle` occurs contiguously anywhere inside `hay`. -/
def charsContains (hay needle : List Char) : Bool :=
  if charsPrefixOf needle hay then true
  else
    match hay with
    | [] => false
    | _ :: t => charsContains t needle

/-- Django's case-insensitive containment lookup `field__icontains=q`:
true when `q` occurs inside the stored `field` value, ignoring case.
An empty `q` matches every (non-null) field value. -/
def icontains (field q : String) : Bool :=
  charsContains (lowerStr field).data (lowerStr q).data

/-- Characters kept by `slugify`: word characters (alphanumerics and
underscore), spaces and hyphens. -/
def slugKeep (c : Char) : Bool := c.isAlphanum || c = '_' || c = ' ' || c = '-'

/-- Separator characters collapsed by `slugify`. -/
def slugSep (c : Char) : Bool := c = ' ' || c = '-'

/-- Collapse every run of separator characters into a single hyphen. -/
def collapseSep : List Char → List Char
  | [] => []
  | [c] => if slugSep c then ['-'] else [c]
  | c₁ :: c₂ :: rest =>
    if slugSep c₁ && slugSep c₂ then collapseSep (c₂ :: rest)
    else (if slugSep c₁ then '-' else c₁) :: collapseSep (c₂ :: rest)

/-- Characters stripped from both ends by `slugify`. -/
def stripEdge (c : Char) : Bool := c = '-' || c = '_'

/-- Model of `django.utils.text.slugify` on ASCII input, as used by
`Video.save`: lowercase, drop characters that are not alphanumerics,
underscores, spaces or hyphens, collapse runs of spaces/hyphens to a
single hyphen, and strip leading/trailing hyphens and underscores. -/
def slugify (s : String) : String :=
  ⟨(((collapseSep ((s.data.map Char.toLower).filter slugKeep)).dropWhile
      stripEdge).reverse.dropWhile stripEdge).reverse⟩

/-- Little-endian decimal digits of `n`, with explicit fuel; any
`fuel ≥ n` gives `Nat.digits 10 n` (proved below). -/
def toDigitsRev : Nat → Nat → List Nat
  | 0, _ => []
  | fuel + 1, n => if n = 0 then [] else n % 10 :: toDigitsRev fuel (n / 10)

/-- Decimal rendering of a natural number, as Python's f-string
`f"{original_slug}-{counter}"` renders the counter. -/
def natToDecimal (n : Nat) : String :=
  if n = 0 then "0" else ⟨((toDigitsRev n n).reverse.map Nat.digitChar)⟩

/-- Candidate slug tried by `Video.save`'s uniqueness loop at counter
value `c`: `f"{original_slug}-{c}"`. -/
def slugCandidate (base : String) (c : Nat) : String :=
  base ++ "-" ++ natToDecimal c

/-- The `while` loop of `Video.save`: starting at `counter`, try
`slugCandidate base counter`, `slugCandidate base (counter + 1)`, … and
return the first candidate not among the existing slugs. `fuel` bounds
the search; the lemmas below show that `slugs.length + 1` fuel always
suffices, so the bounded loop models the unbounded Python loop exactly. -/
def findSlugAux (slugs : List String) (base : String) : Nat → Nat → String
  | _, 0 => base
  | counter, fuel + 1 =>
    let cand := slugCandidate base counter
    if cand ∈ slugs then findSlugAux slugs base (counter + 1) fuel else cand

/-- Slug chosen by `Video.save`: the slugified title itself when free,
otherwise the first free suffixed candidate `-1`, `-2`, …. -/
def findSlug (slugs : List String) (base : String) : String :=
  if base ∈ slugs then findSlugAux slugs base 1 (slugs.length + 1) else base

/-- `Video.save`: when the stored slug is empty (falsy in Python), derive
it from the title via `slugify` and make it unique against the existing
slug column; otherwise keep the stored slug. -/
def videoSaveSlug (slugs : List String) (title slug : String) : String :=
  if slug = "" then findSlug slugs (slugify title) else slug

/-- Repeated `Video.save` of new videos (each entering with an empty
slug), accumulating the slug column of the videos table. -/
def processUploads (slugs : List String) : List String → List String
  | [] => slugs
  | t :: ts => processUploads (videoSaveSlug slugs t "" :: slugs) ts

/-- Row of the `CustomerUser` table. Presentation-only columns (`bio`,
`profile_image`, timestamps) are omitted; `followers` is the
self-referential asymmetric many-to-many relation. -/
structure UserR where
  id : Nat
  username : String
  isCreator : Bool
  isStudent : Bool
  followers : Finset Nat
deriving DecidableEq

/-- Row of the `Video` table; `likes` is the many-to-many liker set, and
the file/thumbnail/duration columns are omitted. Timestamps are modelled
as naturals. -/
structure VideoR where
  id : Nat
  creatorId : Nat
  title : String
  slug : String
  description : String
  views : Nat
  likes : Finset Nat
  uploadedAt : Nat
deriving DecidableEq

/-- Row of the `Comment` table. -/
structure CommentR where
  id : Nat
  videoId : Nat
  userId : Nat
  content : String
  createdAt : Nat
deriving DecidableEq

/-- Persistent state of the application: the database tables. The
`ChannelSubscription` table is the set of (subscriber, creator) pairs —
its `unique_together` constraint makes it a set. -/
structure DBState where
  users : List UserR
  videos : List VideoR
  comments : List CommentR
  subs : Finset (Nat × Nat)
deriving DecidableEq

/-- Creator flag of user `u` as stored in a users table. -/
def isCreatorOfL (l : List UserR) (u : Nat) : Option Bool :=
  (l.find? (fun r => r.id = u)).map (fun r => r.isCreator)

/-- Creator flag of user `u` in state `s` (`none` when `u` is absent). -/
def isCreatorOf (s : DBState) (u : Nat) : Option Bool := isCreatorOfL s.users u

/-- Follower set of user `c` in state `s`. -/
def followersOf (s : DBState) (c : Nat) : Option (Finset Nat) :=
  (s.users.find? (fun r => r.id = c)).map (fun r => r.followers)

/-- Username of user `u`, used by the search's `creator__username` join. -/
def usernameOf (s : DBState) (u : Nat) : String :=
  ((s.users.find? (fun r => r.id = u)).map (fun r => r.username)).getD ""

/-- Lookup of a video row by primary key (`get_object_or_404`). -/
def findVideo (s : DBState) (vid : Nat) : Option VideoR :=
  s.videos.find? (fun v => v.id = vid)

/-- View counter of video `vid` in state `s`. -/
def viewsOf (s : DBState) (vid : Nat) : Option Nat :=
  (findVideo s vid).map (fun v => v.views)

/-- Creator (owner) of video `vid` in state `s`. -/
def creatorOfVid (s : DBState) (vid : Nat) : Option Nat :=
  (findVideo s vid).map (fun v => v.creatorId)

/-- `register` view: form-validated creation of a new user. The form
rejects a duplicate username, the primary key is fresh, and new users get
the default role flags `is_creator = False`, `is_student = True`. -/
def registerUser (uid : Nat) (uname : String) (s : DBState) : DBState :=
  if s.users.any (fun r => r.id = uid) then s
  else if s.users.any (fun r => r.username = uname) then s
  else { s with users := s.users ++ [⟨uid, uname, false, true, ∅⟩] }

/-- `VideouploadForm` validation: `title` of length 3‥200 and
`description` of length 10‥1000, from the model field validators. -/
def uploadFormValid (title desc : String) : Bool :=
  3 ≤ title.length && title.length ≤ 200 &&
    10 ≤ desc.length && desc.length ≤ 1000

/-- `upload_video` view: on a valid form, save the video with `creator`
set to the requester (`Video.save` assigns the slug), then promote the
requester to creator if not already one. `vid` is the fresh primary key
and `t` the upload timestamp. -/
def uploadVideo (u vid : Nat) (title desc : String) (t : Nat) (s : DBState) : DBState :=
  match s.users.find? (fun r => r.id = u) with
  | none => s
  | some user =>
    if uploadFormValid title desc then
      if s.videos.any (fun v => v.id = vid) then s
      else
        let slug := videoSaveSlug (s.videos.map (fun v => v.slug)) title ""
        let s₁ := { s with videos := s.videos ++ [⟨vid, u, title, slug, desc, 0, ∅, t⟩] }
        if user.isCreator then s₁
        else { s₁ with users := s₁.users.map (fun r =>
          if r.id = u then { r with isCreator := true } else r) }
    else s

/-- Re-save of an already-persisted video (`video.save()` inside
`watch_video`): `Video.save` regenerates the slug only when it is empty
(falsy), and the uniqueness query now also sees the video's own row. -/
def videoResave (slugs : List String) (v : VideoR) : VideoR :=
  { v with slug := videoSaveSlug slugs v.title v.slug }

/-- `watch_video` view: fetch the video (a 404 leaves the state
unchanged), increment its view counter by one and save it; everything
else the view does is read-only rendering. -/
def watchVideo (u vid : Nat) (s : DBState) : DBState :=
  match findVideo s vid with
  | none => s
  | some _ =>
    { s with videos := s.videos.map (fun v =>
        if v.id = vid then
          videoResave (s.videos.map (fun w => w.slug)) { v with views := v.views + 1 }
        else v) }

/-- Like toggle of `like_video`: if the requester is in the liker set,
remove them, otherwise add them. -/
def likeToggle (u : Nat) (v : VideoR) : VideoR :=
  if u ∈ v.likes then { v with likes := v.likes.erase u }
  else { v with likes := insert u v.likes }

/-- `like_video` view: presence-based toggle of the requester in the
video's liker set (no other column is touched; the view does not
re-save the video row). -/
def likeVideo (u vid : Nat) (s : DBState) : DBState :=
  match findVideo s vid with
  | none => s
  | some _ =>
    { s with videos := s.videos.map (fun v => if v.id = vid then likeToggle u v else v) }

/-- `toggle_subscription` view: channel-based subscribe/unsubscribe with
a guard rejecting self-subscription before any write happens. -/
def toggleSubscription (u vid : Nat) (s : DBState) : DBState :=
  match findVideo s vid with
  | none => s
  | some video =>
    let creator := video.creatorId
    if u = creator then s
    else if (u, creator) ∈ s.subs then { s with subs := s.subs.erase (u, creator) }
    else { s with subs := insert (u, creator) s.subs }

/-- `delete_video` view: only the recorded creator may delete; deletion
cascades to the video's comments (`on_delete=CASCADE`) and its liker rows
(stored inside the video row here). Any other requester only receives an
error message. -/
def deleteVideo (u vid : Nat) (s : DBState) : DBState :=
  match findVideo s vid with
  | none => s
  | some video =>
    if u = video.creatorId then
      { s with videos := s.videos.filter (fun v => v.id ≠ vid),
               comments := s.comments.filter (fun c => c.videoId ≠ vid) }
    else s

/-- `CommentForm` validation: `content` is required, with max length
1000 from the model field. -/
def commentFormValid (content : String) : Bool :=
  1 ≤ content.length && content.length ≤ 1000

/-- `user_comment` view: on a valid form, attach a new comment by the
requester to the video; a 404 on a missing video leaves the state
unchanged. `cid` is the fresh primary key and `t` the timestamp. -/
def userComment (u vid cid : Nat) (content : String) (t : Nat) (s : DBState) : DBState :=
  match findVideo s vid with
  | none => s
  | some _ =>
    if commentFormValid content then
      if s.comments.any (fun c => c.id = cid) then s
      else { s with comments := s.comments ++ [⟨cid, vid, u, content, t⟩] }
    else s

/-- `follow_creator` view: self-follow is rejected with a warning; an
existing follower only triggers an info message; otherwise the requester
is added to the creator's follower set. -/
def followCreator (u c : Nat) (s : DBState) : DBState :=
  match s.users.find? (fun r => r.id = c) with
  | none => s
  | some creator =>
    if c = u then s
    else if u ∈ creator.followers then s
    else { s with users := s.users.map (fun r =>
      if r.id = c then { r with followers := insert u r.followers } else r) }

/-- Descending order on `uploaded_at` (`order_by('-uploaded_at')`, also
the model's default `Meta.ordering = ['-uploaded_at']`). -/
def byNewest (a b : VideoR) : Bool := b.uploadedAt ≤ a.uploadedAt

/-- Disjunctive filter of `search_videos`:
`Q(title__icontains=q) | Q(description__icontains=q) |
Q(creator__username__icontains=q)`. -/
def searchPred (s : DBState) (q : String) (v : VideoR) : Bool :=
  icontains v.title q || icontains v.description q ||
    icontains (usernameOf s v.creatorId) q

/-- `search_videos` view: disjunctive case-insensitive substring filter
over title, description and creator username, newest results first. -/
def searchVideos (q : String) (s : DBState) : List VideoR :=
  (s.videos.filter (searchPred s q)).mergeSort byNewest

/-- Serialised video entry of the `api_videos_list` response
(`video_url` and date formatting are not modelled). -/
structure VideoData where
  id : Nat
  title : String
  description : String
  creator : String
  views : Nat
  likes : Nat
  uploadedAt : Nat
deriving DecidableEq

/-- JSON body returned by `api_videos_list`. -/
structure VideosListResp where
  success : Bool
  count : Nat
  videos : List VideoData
deriving DecidableEq

/-- Serialisation of one video row for the list endpoint. -/
def videoToData (s : DBState) (v : VideoR) : VideoData :=
  ⟨v.id, v.title, v.description, usernameOf s v.creatorId, v.views, v.likes.card, v.uploadedAt⟩

/-- `api_videos_list` endpoint: `Video.objects.all()[:20]` under the
model's default newest-first ordering, serialised to JSON with
`count = len(videos_data)`. -/
def apiVideosList (s : DBState) : VideosListResp :=
  let videos := (s.videos.mergeSort byNewest).take 20
  let videosData := videos.map (videoToData s)
  ⟨true, videosData.length, videosData⟩

/-- Nested creator object of the `api_video_detail` response. -/
structure CreatorData where
  id : Nat
  username : String
  isCreator : Bool
deriving DecidableEq

/-- Serialised video object of the `api_video_detail` response. -/
structure VideoDetailData where
  id : Nat
  title : String
  description : String
  creator : CreatorData
  views : Nat
  likes : Nat
  uploadedAt : Nat
deriving DecidableEq

/-- JSON body (plus HTTP status) returned by `api_video_detail`. -/
structure VideoDetailResp where
  success : Bool
  video : Option VideoDetailData
  error : Option String
  status : Nat
deriving DecidableEq

/-- Serialisation of the nested creator object. -/
def creatorData (s : DBState) (u : Nat) : CreatorData :=
  ⟨u, usernameOf s u, (isCreatorOf s u).getD false⟩

/-- `api_video_detail` endpoint: a pure read returning the serialised
video, or a structured 404 body when the id does not exist. The handler
performs no writes, hence it returns the state next to the response. -/
def apiVideoDetail (vid : Nat) (s : DBState) : DBState × VideoDetailResp :=
  match findVideo s vid with
  | some v =>
    (s, ⟨true,
        some ⟨v.id, v.title, v.description, creatorData s v.creatorId,
              v.views, v.likes.card, v.uploadedAt⟩,
        none, 200⟩)
  | none => (s, ⟨false, none, some "Video not found", 404⟩)

/-- State-changing requests of the application (the remaining views and
API endpoints only read the database). -/
inductive Op where
  | register (uid : Nat) (uname : String)
  | upload (u vid : Nat) (title desc : String) (t : Nat)
  | watch (u vid : Nat)
  | like (u vid : Nat)
  | toggleSub (u vid : Nat)
  | deleteVid (u vid : Nat)
  | comment (u vid cid : Nat) (content : String) (t : Nat)
  | follow (u c : Nat)
deriving DecidableEq

/-- One request handled by the corresponding view. -/
def step (op : Op) (s : DBState) : DBState :=
  match op with
  | .register uid uname => registerUser uid uname s
  | .upload u vid title desc t => uploadVideo u vid title desc t s
  | .watch u vid => watchVideo u vid s
  | .like u vid => likeVideo u vid s
  | .toggleSub u vid => toggleSubscription u vid s
  | .deleteVid u vid => deleteVideo u vid s
  | .comment u vid cid content t => userComment u vid cid content t s
  | .follow u c => followCreator u c s

/-- A sequence of requests handled in order. -/
def applyOps (s : DBState) (ops : List Op) : DBState :=
  ops.foldl (fun t op => step op t) s

/-- `n` sequential `watch_video` requests for the same video. -/
def watchN (u vid : Nat) : Nat → DBState → DBState
  | 0, s => s
  | n + 1, s => watchVideo u vid (watchN u vid n s)

/-- Liker set of video `vid` in state `s`. -/
def likesOf (s : DBState) (vid : Nat) : Option (Finset Nat) :=
  (findVideo s vid).map (fun v => v.likes)


/-! Concrete database states used to evaluate the definitions. -/

/-- Concrete creator account. -/
def demoUser : UserR := ⟨1, "testuser", true, true, ∅⟩

/-- Concrete non-creator account. -/
def demoUser2 : UserR := ⟨2, "u2", false, true, ∅⟩

/-- The "Python Tutorial" video of the spec's search example. -/
def videoPython : VideoR :=
  ⟨1, 1, "Python Tutorial", "python-tutorial", "learn code", 0, ∅, 1⟩

/-- The "Django Web Development" video of the spec's search example. -/
def videoDjango : VideoR :=
  ⟨2, 1, "Django Web Development", "django-web-development", "build sites", 0, ∅, 2⟩

/-- Concrete two-user, two-video database state. -/
def demoState : DBState :=
  ⟨[demoUser, demoUser2], [videoPython, videoDjango], [], ∅⟩

/-! Auxiliary facts about the decimal rendering used by the slug
uniqueness loop. -/

/-- With enough fuel, `toDigitsRev` computes the little-endian decimal
digits. -/
theorem toDigitsRev_eq_digits : ∀ (fuel n : Nat), n ≤ fuel →
    toDigitsRev fuel n = Nat.digits 10 n := by
  intro fuel
  induction fuel with
  | zero => intro n hn; interval_cases n; simp [toDigitsRev]
  | succ f ih =>
    intro n hn
    by_cases h : n = 0
    · simp [toDigitsRev, h]
    · rw [toDigitsRev, if_neg h,
        Nat.digits_def' (by norm_num : (1:ℕ) < 10) (Nat.pos_of_ne_zero h)]
      congr 1
      exact ih _ (by omega : n / 10 ≤ f)

/-- `Nat.digitChar` is injective on decimal digits. -/
theorem digitChar_injOn : ∀ a < 10, ∀ b < 10,
    Nat.digitChar a = Nat.digitChar b → a = b := by decide

/-- Mapping `Nat.digitChar` over digit lists is injective. -/
theorem map_digitChar_inj : ∀ (l₁ l₂ : List Nat),
    (∀ x ∈ l₁, x < 10) → (∀ x ∈ l₂, x < 10) →
    l₁.map Nat.digitChar = l₂.map Nat.digitChar → l₁ = l₂ := by
  intro l₁
  induction l₁ with
  | nil => intro l₂ _ _ h; cases l₂ <;> simp_all
  | cons a as ih =>
    intro l₂ h₁ h₂ h
    cases l₂ with
    | nil => simp_all
    | cons b bs =>
      simp only [List.map_cons, List.cons.injEq] at h
      have ha : a = b := digitChar_injOn a (h₁ a (by simp)) b (h₂ b (by simp)) h.1
      have : as = bs :=
        ih bs (fun x hx => h₁ x (by simp [hx])) (fun x hx => h₂ x (by simp [hx])) h.2
      simp [ha, this]

/-- The decimal rendering is injective on nonzero numbers. -/
theorem natToDecimal_inj {m n : Nat} (hm : m ≠ 0) (hn : n ≠ 0)
    (h : (natToDecimal m).data = (natToDecimal n).data) : m = n := by
  rw [natToDecimal, if_neg hm, natToDecimal, if_neg hn] at h
  simp only at h
  rw [toDigitsRev_eq_digits m m le_rfl, toDigitsRev_eq_digits n n le_rfl] at h
  have h2 : (Nat.digits 10 m).reverse = (Nat.digits 10 n).reverse := by
    apply map_digitChar_inj
    · intro x hx
      exact Nat.digits_lt_base (by norm_num) (List.mem_reverse.mp hx)
    · intro x hx
      exact Nat.digits_lt_base (by norm_num) (List.mem_reverse.mp hx)
    · exact h
  have h3 : Nat.digits 10 m = Nat.digits 10 n := List.reverse_inj.mp h2
  have := congrArg (Nat.ofDigits 10) h3
  rwa [Nat.ofDigits_digits, Nat.ofDigits_digits] at this

/-- Distinct nonzero counters produce distinct suffixed slug candidates. -/
theorem slugCandidate_inj (base : String) {c₁ c₂ : Nat} (h₁ : c₁ ≠ 0) (h₂ : c₂ ≠ 0)
    (h : slugCandidate base c₁ = slugCandidate base c₂) : c₁ = c₂ := by
  apply natToDecimal_inj h₁ h₂
  have := congrArg String.data h
  simp only [slugCandidate, String.data_append] at this
  exact List.append_cancel_left this

/-- Pigeonhole: among any `slugs.length + 1` consecutive candidates at
least one is not an existing slug. -/
theorem exists_free_candidate (slugs : List String) (base : String) (counter n : Nat)
    (hc : counter ≠ 0) (hn : slugs.length ≤ n) :
    ∃ i, i ≤ n ∧ slugCandidate base (counter + i) ∉ slugs := by
  by_contra hcon
  push_neg at hcon
  have hinj : Set.InjOn (fun i => slugCandidate base (counter + i))
      (Finset.range (n + 1)) := by
    intro i _ j _ hij
    have := slugCandidate_inj base (by omega : counter + i ≠ 0)
      (by omega : counter + j ≠ 0) hij
    omega
  have hsub : (Finset.range (n + 1)).image (fun i => slugCandidate base (counter + i))
      ⊆ slugs.toFinset := by
    intro x hx
    rw [Finset.mem_image] at hx
    obtain ⟨i, hi, rfl⟩ := hx
    rw [List.mem_toFinset]
    exact hcon i (by simpa using Nat.lt_succ_iff.mp (Finset.mem_range.mp hi))
  have hcard : n + 1 ≤ slugs.toFinset.card := by
    calc n + 1 = (Finset.range (n + 1)).card := (Finset.card_range _).symm
    _ = ((Finset.range (n + 1)).image (fun i => slugCandidate base (counter + i))).card :=
        (Finset.card_image_of_injOn hinj).symm
    _ ≤ slugs.toFinset.card := Finset.card_le_card hsub
  have : slugs.toFinset.card ≤ slugs.length := slugs.toFinset_card_le
  omega

/-- The bounded loop returns a suffixed candidate that is not an existing
slug, provided a free candidate lies within the fuel window. -/
theorem findSlugAux_spec (slugs : List String) (base : String) :
    ∀ (fuel counter : Nat), counter ≠ 0 →
      (∃ i, i < fuel ∧ slugCandidate base (counter + i) ∉ slugs) →
      ∃ c, c ≠ 0 ∧ findSlugAux slugs base counter fuel = slugCandidate base c ∧
        slugCandidate base c ∉ slugs := by
  intro fuel
  induction fuel with
  | zero => intro counter _ ⟨i, hi, _⟩; omega
  | succ f ih =>
    intro counter hc ⟨i, hi, hfree⟩
    rw [findSlugAux]
    by_cases h : slugCandidate base counter ∈ slugs
    · simp only [h, if_true]
      apply ih (counter + 1) (by omega)
      have hi0 : i ≠ 0 := by
        intro h0
        rw [h0, Nat.add_zero] at hfree
        exact hfree h
      exact ⟨i - 1, by omega,
        by rw [(by omega : counter + 1 + (i - 1) = counter + i)]; exact hfree⟩
    · simp only [h, if_false]
      exact ⟨counter, hc, rfl, h⟩

/-- On a collision, `Video.save` picks some suffixed candidate `-c`
(`c ≥ 1`) that is free. -/
theorem findSlug_spec (slugs : List String) (base : String) (h : base ∈ slugs) :
    ∃ c, c ≠ 0 ∧ findSlug slugs base = slugCandidate base c ∧
      findSlug slugs base ∉ slugs := by
  rw [findSlug, if_pos h]
  obtain ⟨i, hi, hfree⟩ := exists_free_candidate slugs base 1 slugs.length (by omega) le_rfl
  obtain ⟨c, hc, heq, hnotin⟩ :=
    findSlugAux_spec slugs base (slugs.length + 1) 1 (by omega) ⟨i, by omega, hfree⟩
  exact ⟨c, hc, heq, heq ▸ hnotin⟩

/-- The slug chosen by `Video.save` is never an existing slug. -/
theorem findSlug_fresh (slugs : List String) (base : String) :
    findSlug slugs base ∉ slugs := by
  by_cases h : base ∈ slugs
  · obtain ⟨c, _, _, hnotin⟩ := findSlug_spec slugs base h
    exact hnotin
  · rw [findSlug, if_neg h]; exact h

/-- Saving any sequence of new videos preserves pairwise distinctness of
the slug column. -/
theorem processUploads_nodup : ∀ (titles slugs : List String), slugs.Nodup →
    (processUploads slugs titles).Nodup := by
  intro titles
  induction titles with
  | nil => intro slugs h; exact h
  | cons t ts ih =>
    intro slugs h
    rw [processUploads]
    apply ih
    rw [List.nodup_cons]
    constructor
    · rw [videoSaveSlug, if_pos rfl]
      exact findSlug_fresh _ _
    · exact h

/-- C2: across any sequence of Video saves, slugs stay pairwise unique:
a new video whose title slugifies to an already-held slug receives a
suffixed slug `-c` (`c ≥ 1`) distinct from every existing slug, and the
accumulated slug column is duplicate-free. -/
theorem slug_suffix_uniqueness (titles slugs : List String) (h : slugs.Nodup) :
    (processUploads slugs titles).Nodup ∧
    ∀ base ∈ slugs, ∃ c, c ≠ 0 ∧ findSlug slugs base = slugCandidate base c ∧
      findSlug slugs base ∉ slugs := by
  refine ⟨processUploads_nodup titles slugs h, ?_⟩
  intro base hb
  exact findSlug_spec slugs base hb

/-- Witness for C2: two uploads titled "Test Video" produce the slugs
`test-video` and `test-video-1`, which are distinct. -/
theorem slug_suffix_uniqueness_witness :
    (processUploads [] ["Test Video", "Test Video"]).Nodup ∧
    processUploads [] ["Test Video", "Test Video"] = ["test-video-1", "test-video"] :=
  ⟨(slug_suffix_uniqueness ["Test Video", "Test Video"] [] (by decide)).1, by decide⟩

/-! Generic lookup lemmas for id-preserving row updates. -/

/-- `find?` commutes with mapping a function that preserves the search
predicate. -/
theorem find?_map_preserve {α : Type} (f : α → α) (p : α → Bool)
    (hp : ∀ x, p (f x) = p x) (l : List α) :
    (l.map f).find? p = (l.find? p).map f := by
  rw [List.find?_map]
  have : (p ∘ f) = p := by
    funext x
    exact hp x
  rw [this]

/-- The like toggle never changes the video's primary key. -/
theorem likeToggle_id (u : Nat) (v : VideoR) : (likeToggle u v).id = v.id := by
  rw [likeToggle]; split <;> rfl

/-- Toggling the same user's like twice restores the row. -/
theorem likeToggle_involution (u : Nat) (v : VideoR) :
    likeToggle u (likeToggle u v) = v := by
  by_cases h : u ∈ v.likes
  · have h1 : likeToggle u v = { v with likes := v.likes.erase u } := by
      rw [likeToggle, if_pos h]
    rw [h1, likeToggle, if_neg (by simp : u ∉ v.likes.erase u)]
    simp [Finset.insert_erase h]
  · have h1 : likeToggle u v = { v with likes := insert u v.likes } := by
      rw [likeToggle, if_neg h]
    rw [h1, likeToggle, if_pos (by simp : u ∈ insert u v.likes)]
    simp [Finset.erase_insert h]

/-- C3: `like_video` toggles the requester's membership in the video's
liker set — removing them when present and adding them when absent — and
applying it twice to the same user and video restores the state exactly. -/
theorem like_video_toggle_involution (u vid : Nat) (s : DBState) :
    likesOf (likeVideo u vid s) vid =
      (likesOf s vid).map (fun L => if u ∈ L then L.erase u else insert u L) ∧
    likeVideo u vid (likeVideo u vid s) = s := by
  rcases h : findVideo s vid with _ | v₀
  · constructor
    · simp only [likeVideo, h, likesOf, Option.map_none']
    · simp only [likeVideo, h]
  · set f : VideoR → VideoR := fun v => if v.id = vid then likeToggle u v else v with hf
    have hp : ∀ v : VideoR, (decide ((f v).id = vid)) = (decide (v.id = vid)) := by
      intro v
      rw [hf]
      dsimp only
      split
      · rw [likeToggle_id]
      · rfl
    have h2 : findVideo { s with videos := s.videos.map f } vid = some (f v₀) := by
      show (s.videos.map f).find? (fun v => v.id = vid) = some (f v₀)
      rw [find?_map_preserve f _ hp,
        show s.videos.find? (fun v => v.id = vid) = some v₀ from h]
      rfl
    have hv₀ : v₀.id = vid := by
      have := List.find?_some (show s.videos.find? (fun v => v.id = vid) = some v₀ from h)
      simpa using this
    constructor
    · simp only [likeVideo, h, likesOf, h2, Option.map_some']
      rw [hf]
      dsimp only
      rw [if_pos hv₀, likeToggle]
      split <;> rfl
    · have hff : ∀ v : VideoR, f (f v) = v := by
        intro v
        rw [hf]
        dsimp only
        by_cases hv : v.id = vid
        · rw [if_pos hv, if_pos (by rw [likeToggle_id]; exact hv), likeToggle_involution]
        · rw [if_neg hv, if_neg hv]
      have hcomp : f ∘ f = id := funext hff
      have hmaps : (s.videos.map f).map f = s.videos := by
        rw [List.map_map, hcomp, List.map_id]
      simp only [likeVideo, h, h2, hmaps]

/-- Re-saving only rewrites the slug column. -/
theorem videoResave_id (slugs : List String) (v : VideoR) :
    (videoResave slugs v).id = v.id := rfl

/-- Re-saving preserves the view counter. -/
theorem videoResave_views (slugs : List String) (v : VideoR) :
    (videoResave slugs v).views = v.views := rfl

/-- One `watch_video` request increments the video's counter by exactly
one (and a missing video changes nothing). -/
theorem viewsOf_watch (u vid : Nat) (s : DBState) :
    viewsOf (watchVideo u vid s) vid = (viewsOf s vid).map (· + 1) := by
  rcases h : findVideo s vid with _ | v₀
  · simp only [watchVideo, h, viewsOf, Option.map_none']
  · set f : VideoR → VideoR := fun v =>
      if v.id = vid then
        videoResave (s.videos.map (fun w => w.slug)) { v with views := v.views + 1 }
      else v with hf
    have hp : ∀ v : VideoR, (decide ((f v).id = vid)) = (decide (v.id = vid)) := by
      intro v
      rw [hf]
      dsimp only
      split
      · rw [videoResave_id]
      · rfl
    have h2 : findVideo { s with videos := s.videos.map f } vid = some (f v₀) := by
      show (s.videos.map f).find? (fun v => v.id = vid) = some (f v₀)
      rw [find?_map_preserve f _ hp,
        show s.videos.find? (fun v => v.id = vid) = some v₀ from h]
      rfl
    have hv₀ : v₀.id = vid := by
      have := List.find?_some (show s.videos.find? (fun v => v.id = vid) = some v₀ from h)
      simpa using this
    simp only [watchVideo, h, viewsOf, h2, Option.map_some']
    rw [hf]
    dsimp only
    rw [if_pos hv₀, videoResave_views]

/-- C4: every `watch_video` call on an existing video increments its
`views` counter by exactly 1 and persists it, with no deduplication: `n`
sequential calls take the counter from `k` to `k + n` (so from 0 to `n`). -/
theorem watch_video_counts_every_call (u vid : Nat) (s : DBState) (n k : Nat)
    (h : viewsOf s vid = some k) :
    viewsOf (watchN u vid n s) vid = some (k + n) := by
  induction n with
  | zero => simpa using h
  | succ m ih =>
    rw [watchN, viewsOf_watch, ih, Option.map_some']
    congr 1

/-- Witness for C4: three watches of video 1 (counter starting at 0)
leave its counter at 3. -/
theorem watch_video_counts_every_call_witness :
    viewsOf (watchN 2 1 3 demoState) 1 = some 3 :=
  watch_video_counts_every_call 2 1 demoState 3 0 (by decide)

/-- C5: `toggle_subscription` invoked by the video's own creator is
rejected with no state change; consequently a requester with no
self-subscription row can never acquire one, whatever the prior state. -/
theorem toggle_subscription_never_self (u vid : Nat) (s : DBState) :
    (creatorOfVid s vid = some u → toggleSubscription u vid s = s) ∧
    ((u, u) ∉ s.subs → (u, u) ∉ (toggleSubscription u vid s).subs) := by
  constructor
  · intro h
    rcases hv : findVideo s vid with _ | video
    · simp only [toggleSubscription, hv]
    · have hcreator : video.creatorId = u := by
        rw [creatorOfVid, hv, Option.map_some'] at h
        exact Option.some.inj h
      simp only [toggleSubscription, hv]
      rw [if_pos hcreator.symm]
  · intro h
    rcases hv : findVideo s vid with _ | video
    · simp only [toggleSubscription, hv]
      exact h
    · simp only [toggleSubscription, hv]
      by_cases hc : u = video.creatorId
      · rw [if_pos hc]
        exact h
      · rw [if_neg hc]
        by_cases hm : (u, video.creatorId) ∈ s.subs
        · rw [if_pos hm]
          intro hmem
          exact h (Finset.mem_of_mem_erase hmem)
        · rw [if_neg hm]
          intro hmem
          rcases Finset.mem_insert.mp hmem with heq | hmem2
          · exact hc (congrArg Prod.snd heq)
          · exact h hmem2

/-- Witness for C5: creator 1 of video 1 cannot self-subscribe in the
concrete state; the state and the subscription table are untouched. -/
theorem toggle_subscription_never_self_witness :
    toggleSubscription 1 1 demoState = demoState ∧
    (1, 1) ∉ (toggleSubscription 1 1 demoState).subs :=
  ⟨(toggle_subscription_never_self 1 1 demoState).1 (by decide),
   (toggle_subscription_never_self 1 1 demoState).2 (by decide)⟩

/-- C6: `delete_video` by any requester other than the recorded creator
changes nothing: the whole state — the video row, its liker set and its
comments included — is exactly as before. -/
theorem delete_video_non_creator_noop (u vid c : Nat) (s : DBState)
    (hc : creatorOfVid s vid = some c) (hne : u ≠ c) :
    deleteVideo u vid s = s := by
  rcases hv : findVideo s vid with _ | video
  · simp only [deleteVideo, hv]
  · have hcr : video.creatorId = c := by
      rw [creatorOfVid, hv, Option.map_some'] at hc
      exact Option.some.inj hc
    simp only [deleteVideo, hv]
    rw [if_neg (by rw [hcr]; exact hne)]

/-- Witness for C6: user 2 cannot delete user 1's video 1 in the concrete
state; the state is unchanged. -/
theorem delete_video_non_creator_noop_witness :
    deleteVideo 2 1 demoState = demoState :=
  delete_video_non_creator_noop 2 1 1 demoState (by decide) (by decide)

/-- C10: for a requester distinct from the creator, `follow_creator` is
an idempotent add, not a toggle: the creator's follower set afterwards is
the old set with the requester inserted (unchanged when already a
follower), and applying the view a second time changes nothing. -/
theorem follow_creator_idempotent_add (u c : Nat) (s : DBState) (hne : u ≠ c) :
    followersOf (followCreator u c s) c =
      (followersOf s c).map (fun F => insert u F) ∧
    followCreator u c (followCreator u c s) = followCreator u c s := by
  rcases hf : s.users.find? (fun r => r.id = c) with _ | creator
  · constructor
    · simp only [followCreator, hf, followersOf, Option.map_none']
    · simp only [followCreator, hf]
  · have hguard : ¬ c = u := fun h => hne h.symm
    by_cases hmem : u ∈ creator.followers
    · have hcall : followCreator u c s = s := by
        simp only [followCreator, hf]
        rw [if_neg hguard, if_pos hmem]
      constructor
      · rw [hcall, followersOf, hf, Option.map_some', Option.map_some',
          Finset.insert_eq_self.mpr hmem]
      · rw [hcall]
        exact hcall
    · set f : UserR → UserR := fun r =>
        if r.id = c then { r with followers := insert u r.followers } else r with hff
      have hcall : followCreator u c s = { s with users := s.users.map f } := by
        simp only [followCreator, hf]
        rw [if_neg hguard, if_neg hmem]
      have hp : ∀ r : UserR, (decide ((f r).id = c)) = (decide (r.id = c)) := by
        intro r
        rw [hff]
        dsimp only
        split <;> rfl
      have hcid : creator.id = c := by
        have := List.find?_some hf
        simpa using this
      have h2 : (s.users.map f).find? (fun r => r.id = c) = some (f creator) := by
        rw [find?_map_preserve f _ hp, hf]
        rfl
      have hfc : f creator = { creator with followers := insert u creator.followers } := by
        rw [hff]
        dsimp only
        rw [if_pos hcid]
      constructor
      · rw [hcall]
        simp only [followersOf, hf, h2, Option.map_some', hfc]
      · rw [hcall]
        simp only [followCreator, h2]
        rw [if_neg hguard, if_pos (by rw [hfc]; exact Finset.mem_insert_self u creator.followers)]

/-- Witness for C10: user 2 following creator 1 in the concrete state
adds the follow, and a second request is a no-op. -/
theorem follow_creator_idempotent_add_witness :
    followersOf (followCreator 2 1 demoState) 1 =
      (followersOf demoState 1).map (fun F => insert 2 F) ∧
    followCreator 2 1 (followCreator 2 1 demoState) = followCreator 2 1 demoState :=
  follow_creator_idempotent_add 2 1 demoState (by decide)

/-- C8: `api_videos_list` returns at most 20 videos, its `count` field
equals the number of entries in the returned list, and the entries are
ordered newest first by upload time. -/
theorem api_videos_list_bounded_sorted (s : DBState) :
    (apiVideosList s).videos.length ≤ 20 ∧
    (apiVideosList s).count = (apiVideosList s).videos.length ∧
    (apiVideosList s).videos.Pairwise (fun a b => b.uploadedAt ≤ a.uploadedAt) := by
  refine ⟨?_, rfl, ?_⟩
  · show (((s.videos.mergeSort byNewest).take 20).map (videoToData s)).length ≤ 20
    rw [List.length_map]
    exact List.length_take_le 20 _
  · have hsorted : (s.videos.mergeSort byNewest).Pairwise (fun a b => byNewest a b) := by
      apply List.sorted_mergeSort
      · intro a b c hab hbc
        simp only [byNewest, decide_eq_true_eq] at *
        omega
      · intro a b
        simp only [byNewest]
        rcases Nat.le_total b.uploadedAt a.uploadedAt with h | h <;> simp [h]
    have htake : ((s.videos.mergeSort byNewest).take 20).Pairwise (fun a b => byNewest a b) :=
      List.Pairwise.sublist (List.take_sublist 20 _) hsorted
    show (((s.videos.mergeSort byNewest).take 20).map (videoToData s)).Pairwise
      (fun a b => b.uploadedAt ≤ a.uploadedAt)
    rw [List.pairwise_map]
    apply htake.imp
    intro a b hab
    simpa [byNewest, videoToData] using hab

/-- C9: the JSON detail endpoint `api_video_detail` leaves the whole
persistent state unchanged for every video id — in particular it does not
touch the view counter — whereas a `watch_video` request on an existing
video increments that counter by one. -/
theorem api_video_detail_pure (vid : Nat) (s : DBState) :
    (apiVideoDetail vid s).1 = s ∧
    (∀ u k, viewsOf s vid = some k →
      viewsOf (watchVideo u vid s) vid = some (k + 1)) := by
  constructor
  · rcases hv : findVideo s vid with _ | v <;> simp only [apiVideoDetail, hv]
  · intro u k h
    rw [viewsOf_watch, h, Option.map_some']

/-- Witness for C9: fetching video 1's JSON detail leaves the concrete
state untouched, while watching it moves its counter from 0 to 1. -/
theorem api_video_detail_pure_witness :
    (apiVideoDetail 1 demoState).1 = demoState ∧
    viewsOf (watchVideo 7 1 demoState) 1 = some (0 + 1) :=
  ⟨(api_video_detail_pure 1 demoState).1,
   (api_video_detail_pure 1 demoState).2 7 0 (by decide)⟩

/-- C1 (refutation of the empty-query clause): on the two-video catalog of
the spec's own example, `search_videos` with the empty query returns the
FULL catalog — both videos, a nonempty result — because `icontains` with
an empty needle matches every row; the query "Python" does return exactly
the "Python Tutorial" video. The view's docstring ("Empty query returns
empty results") and the spec state the empty query yields zero rows. -/
theorem search_empty_query_returns_catalog :
    (searchVideos "" demoState).length = 2 ∧
    searchVideos "" demoState ≠ [] ∧
    searchVideos "Python" demoState = [videoPython] := by
  have h1 : demoState.videos.filter (searchPred demoState "") =
      [videoPython, videoDjango] := by decide
  have h2 : demoState.videos.filter (searchPred demoState "Python") =
      [videoPython] := by decide
  refine ⟨?_, ?_, ?_⟩
  · rw [searchVideos, h1, List.length_mergeSort]
    rfl
  · rw [searchVideos, h1]
    intro hcon
    have hlen := congrArg List.length hcon
    rw [List.length_mergeSort] at hlen
    simp at hlen
  · rw [searchVideos, h2, List.mergeSort_singleton]

/-! Creator-flag lifecycle lemmas. -/

/-- Appending a new row at the end of the users table does not change an
existing user's stored creator flag. -/
theorem isCreatorOfL_append_right {l : List UserR} {u : Nat} {b : Bool} (r : UserR)
    (h : isCreatorOfL l u = some b) : isCreatorOfL (l ++ [r]) u = some b := by
  rw [isCreatorOfL] at h ⊢
  obtain ⟨r₀, hr₀, hb⟩ := Option.map_eq_some'.mp h
  rw [List.find?_append, hr₀]
  simp [hb]

/-- A row update that preserves ids and can only turn the creator flag on
keeps `some true` lookups at `some true`. -/
theorem isCreatorOfL_map_mono {l : List UserR} {u : Nat} (f : UserR → UserR)
    (hid : ∀ r, (f r).id = r.id)
    (hcr : ∀ r, (f r).isCreator = r.isCreator ∨ (f r).isCreator = true)
    (h : isCreatorOfL l u = some true) : isCreatorOfL (l.map f) u = some true := by
  rw [isCreatorOfL] at h ⊢
  rw [find?_map_preserve f _ (fun r => by rw [hid])]
  obtain ⟨r₀, hr₀, hb⟩ := Option.map_eq_some'.mp h
  rw [hr₀]
  rcases hcr r₀ with hc | hc
  · simp [hc, hb]
  · simp [hc]

/-- No request of the system ever turns a user's creator flag off. -/
theorem step_preserves_creator (op : Op) (s : DBState) (u : Nat)
    (h : isCreatorOf s u = some true) : isCreatorOf (step op s) u = some true := by
  cases op with
  | register uid uname =>
    show isCreatorOf (registerUser uid uname s) u = some true
    rw [registerUser]
    split
    · exact h
    · split
      · exact h
      · exact isCreatorOfL_append_right _ h
  | upload u' vid title desc t =>
    show isCreatorOf (uploadVideo u' vid title desc t s) u = some true
    rw [uploadVideo]
    rcases hf : s.users.find? (fun r => r.id = u') with _ | user
    · simp only [hf]
      exact h
    · simp only [hf]
      split
      · split
        · exact h
        · split
          · exact h
          · refine isCreatorOfL_map_mono _ ?_ ?_ h
            · intro r
              dsimp only
              split <;> rfl
            · intro r
              dsimp only
              split
              · exact Or.inr rfl
              · exact Or.inl rfl
      · exact h
  | watch u' vid =>
    show isCreatorOf (watchVideo u' vid s) u = some true
    rw [watchVideo]
    rcases hv : findVideo s vid with _ | v <;> simp only [hv] <;> exact h
  | like u' vid =>
    show isCreatorOf (likeVideo u' vid s) u = some true
    rw [likeVideo]
    rcases hv : findVideo s vid with _ | v <;> simp only [hv] <;> exact h
  | toggleSub u' vid =>
    show isCreatorOf (toggleSubscription u' vid s) u = some true
    rw [toggleSubscription]
    rcases hv : findVideo s vid with _ | v
    · simp only [hv]
      exact h
    · simp only [hv]
      split
      · exact h
      · split <;> exact h
  | deleteVid u' vid =>
    show isCreatorOf (deleteVideo u' vid s) u = some true
    rw [deleteVideo]
    rcases hv : findVideo s vid with _ | v
    · simp only [hv]
      exact h
    · simp only [hv]
      split <;> exact h
  | comment u' vid cid content t =>
    show isCreatorOf (userComment u' vid cid content t s) u = some true
    rw [userComment]
    rcases hv : findVideo s vid with _ | v
    · simp only [hv]
      exact h
    · simp only [hv]
      split
      · split <;> exact h
      · exact h
  | follow u' c =>
    show isCreatorOf (followCreator u' c s) u = some true
    rw [followCreator]
    rcases hf : s.users.find? (fun r => r.id = c) with _ | creator
    · simp only [hf]
      exact h
    · simp only [hf]
      split
      · exact h
      · split
        · exact h
        · refine isCreatorOfL_map_mono _ ?_ ?_ h
          · intro r
            dsimp only
            split <;> rfl
          · intro r
            dsimp only
            split
            · exact Or.inl rfl
            · exact Or.inl rfl

/-- Once a user's creator flag is true it stays true under any sequence
of requests. -/
theorem applyOps_preserves_creator (ops : List Op) : ∀ (s : DBState) (u : Nat),
    isCreatorOf s u = some true → isCreatorOf (applyOps s ops) u = some true := by
  induction ops with
  | nil => intro s u h; exact h
  | cons op rest ih =>
    intro s u h
    rw [applyOps, List.foldl_cons]
    exact ih _ _ (step_preserves_creator op s u h)

/-- A freshly registered user starts with the creator flag off. -/
theorem register_starts_false (s : DBState) (uid : Nat) (uname : String)
    (h1 : s.users.any (fun r => r.id = uid) = false)
    (h2 : s.users.any (fun r => r.username = uname) = false) :
    isCreatorOf (registerUser uid uname s) uid = some false := by
  rw [registerUser, if_neg (by simp [h1]), if_neg (by simp [h2])]
  have hnone : s.users.find? (fun r => r.id = uid) = none := by
    rw [List.find?_eq_none]
    intro x hx
    have := (List.any_eq_false.mp h1) x hx
    simpa using this
  show isCreatorOfL (s.users ++ [⟨uid, uname, false, true, ∅⟩]) uid = some false
  rw [isCreatorOfL, List.find?_append, hnone]
  simp

/-- A successful upload leaves the uploader's creator flag at true. -/
theorem upload_sets_creator (s : DBState) (u vid : Nat) (title desc : String)
    (t : Nat) (user : UserR)
    (hu : s.users.find? (fun r => r.id = u) = some user)
    (hform : uploadFormValid title desc = true)
    (hfresh : s.videos.any (fun v => v.id = vid) = false) :
    isCreatorOf (uploadVideo u vid title desc t s) u = some true := by
  rw [uploadVideo]
  simp only [hu]
  rw [if_pos hform, if_neg (by simp [hfresh])]
  by_cases hc : user.isCreator = true
  · rw [if_pos hc]
    show isCreatorOfL s.users u = some true
    rw [isCreatorOfL, hu, Option.map_some', hc]
  · rw [if_neg hc]
    have huid : user.id = u := by simpa using List.find?_some hu
    show isCreatorOfL (s.users.map (fun r =>
      if r.id = u then { r with isCreator := true } else r)) u = some true
    rw [isCreatorOfL, find?_map_preserve _ _ (fun r => by split <;> rfl),
      hu, Option.map_some', Option.map_some']
    rw [if_pos huid]

/-- C7: a user's creator flag starts false on registration, is set to
true by that user's first successful upload, and is never reset by any
subsequent request of the system. -/
theorem creator_flag_permanent :
    (∀ (s : DBState) (uid : Nat) (uname : String),
        s.users.any (fun r => r.id = uid) = false →
        s.users.any (fun r => r.username = uname) = false →
        isCreatorOf (registerUser uid uname s) uid = some false) ∧
    (∀ (s : DBState) (u vid : Nat) (title desc : String) (t : Nat) (user : UserR),
        s.users.find? (fun r => r.id = u) = some user →
        uploadFormValid title desc = true →
        s.videos.any (fun v => v.id = vid) = false →
        isCreatorOf (uploadVideo u vid title desc t s) u = some true) ∧
    (∀ (s : DBState) (u : Nat) (ops : List Op),
        isCreatorOf s u = some true →
        isCreatorOf (applyOps s ops) u = some true) :=
  ⟨register_starts_false,
   fun s u vid title desc t user hu hform hfresh =>
     upload_sets_creator s u vid title desc t user hu hform hfresh,
   fun s u ops h => applyOps_preserves_creator ops s u h⟩

/-- Witness for C7: in the concrete state, a fresh registration starts
non-creator, an upload by the non-creator user 2 flips their flag, and a
batch of later requests leaves user 1's flag at true. -/
theorem creator_flag_permanent_witness :
    isCreatorOf (registerUser 3 "newuser" demoState) 3 = some false ∧
    isCreatorOf (uploadVideo 2 3 "My Title" "a description" 7 demoState) 2 = some true ∧
    isCreatorOf (applyOps demoState
      [Op.like 2 1, Op.watch 2 1, Op.toggleSub 2 1, Op.deleteVid 1 2,
       Op.comment 2 1 1 "nice video" 9, Op.follow 2 1]) 1 = some true :=
  ⟨creator_flag_permanent.1 demoState 3 "newuser" (by decide) (by decide),
   creator_flag_permanent.2.1 demoState 2 3 "My Title" "a description" 7 demoUser2
     (by decide) (by decide) (by decide),
   creator_flag_permanent.2.2 demoState 1
     [Op.like 2 1, Op.watch 2 1, Op.toggleSub 2 1, Op.deleteVid 1 2,
      Op.comment 2 1 1 "nice video" 9, Op.follow 2 1] (by decide)⟩
